import Mathlib

/-!
Verification development for the remote_monitor repository.

The Python source (app/parsers.py, app/metrics.py, app/api.py,
app/ssh_utils.py, app/models.py, app/config.py) is shallowly embedded below:
pure functions become Lean functions, the asynchronous executor becomes an
explicit oracle argument, machine floats become exact rationals, and fallible
code returns Option.  Regular-expression search (Python `re.search`) is
embedded by a small backtracking engine whose alternative order mirrors the
Python engine (leftmost start position, greedy stars longest-first, lazy
stars shortest-first), which is exactly the semantics the two patterns in
parsers.py rely on.
-/

/-! ## Character classes (Python `\d`, `\s`, `.`, `[,.]`, ASCII range) -/

def isDigitC (c : Char) : Bool := c.isDigit

def isSpaceC (c : Char) : Bool :=
  c == ' ' || c == '\t' || c == '\n' || c == '\x0d' || c == '\x0b' || c == '\x0c'

/-- Python `.` in a regex: any character except a newline. -/
def dotC (c : Char) : Bool := c != '\n'

/-- The character class `[,.]` used for the locale-tolerant decimal separator. -/
def sepC (c : Char) : Bool := c == ',' || c == '.'

/-! ## Python string helpers -/

/-- `str.strip()` on a character list: drop whitespace from both ends. -/
def pyStripL (cs : List Char) : List Char :=
  ((cs.dropWhile isSpaceC).reverse.dropWhile isSpaceC).reverse

def pyStrip (s : String) : String := String.mk (pyStripL s.toList)

/-- Python `str.split(sep)` with a one-character separator (keeps empty
fields, like Python). -/
def splitCh (sep : Char) : List Char → List (List Char)
  | [] => [[]]
  | c :: rest =>
    match splitCh sep rest with
    | [] => [[]]
    | h :: t => if c = sep then [] :: h :: t else (c :: h) :: t

def pySplit (sep : Char) (s : String) : List String :=
  (splitCh sep s.toList).map String.mk

/-- `str.splitlines()` on an already-stripped string (line breaks are
modelled as a bare newline, the only break the monitored tools emit).
Python returns the empty list on the empty string. -/
def pySplitlines (s : String) : List String :=
  if s = "" then [] else pySplit '\n' s

/-- Value of a digit string, most significant first. -/
def digitsToNat (cs : List Char) : Nat :=
  cs.foldl (fun a c => a * 10 + (c.toNat - 48)) 0

/-- Leading `+`/`-` sign handling of Python `int()` / `float()`:
returns (negative?, rest). -/
def stripSign (cs : List Char) : Bool × List Char :=
  if cs.head? = some '+' then (false, cs.tail)
  else if cs.head? = some '-' then (true, cs.tail)
  else (false, cs)

/-- Python `float(s)` on the plain decimal forms the monitored tools emit
(optional sign, digits, optional single dot; exponent/inf forms never occur
in this program's data and are not modelled).  Returns none exactly when
Python raises ValueError on such a form. -/
def pyFloat (cs : List Char) : Option ℚ :=
  let sb := stripSign cs
  let body := sb.2
  let ip := body.takeWhile (fun c => c != '.')
  let rest := body.dropWhile (fun c => c != '.')
  match rest with
  | [] =>
    if body ≠ [] ∧ body.all isDigitC then
      some (if sb.1 then -(digitsToNat body : ℚ) else (digitsToNat body : ℚ))
    else none
  | _ :: frac =>
    if ip.all isDigitC ∧ frac.all isDigitC ∧ (ip ≠ [] ∨ frac ≠ []) then
      let q : ℚ := (digitsToNat ip : ℚ) + (digitsToNat frac : ℚ) / (10 : ℚ) ^ frac.length
      some (if sb.1 then -q else q)
    else none

/-- Python `int(s)` on a stripped field: optional sign then digits. -/
def pyInt (cs : List Char) : Option Int :=
  let sb := stripSign cs
  let body := sb.2
  if body ≠ [] ∧ body.all isDigitC then
    some (if sb.1 then -(digitsToNat body : Int) else (digitsToNat body : Int))
  else none

/-- `"x" in y` on character lists (Python substring test). -/
def hasSub (needle : List Char) : List Char → Bool
  | [] => needle.isEmpty
  | c :: rest => needle.isPrefixOf (c :: rest) || hasSub needle rest

/-- `s.replace(",", ".")` character-wise. -/
def commaToDot (c : Char) : Char := if c = ',' then '.' else c

/-- Python `round()` to an integer: nearest, ties to even. -/
def pyRound (q : ℚ) : Int :=
  let fl := Int.ediv q.num (q.den : Int)
  let r : ℚ := q - (fl : ℚ)
  if 2 * r < 1 then fl
  else if 1 < 2 * r then fl + 1
  else if fl % 2 = 0 then fl else fl + 1

/-- Python `round(x, 1)` modelled over exact rationals. -/
def round1 (q : ℚ) : ℚ := (pyRound (q * 10) : ℚ) / 10

/-- Python `int()` on a float value: truncation toward zero. -/
def pyTrunc (q : ℚ) : Int := q.num.tdiv (q.den : Int)

/-! ## Regex engine

List-of-alternatives backtracking matcher.  `matchRE r s` returns every
(suffix, captures) pair in exactly the order the Python engine would try
them; `reSearch` scans start positions left to right and keeps the first
match, i.e. `re.search` semantics. -/

inductive RE where
  | eps : RE
  | lit : Char → RE
  | cls : (Char → Bool) → RE
  | cat : RE → RE → RE
  | star : (Char → Bool) → Bool → RE
  | grp : Nat → RE → RE

/-- Captures: group number to captured characters. -/
abbrev Caps := List (Nat × List Char)

/-- Length of the maximal leading run satisfying `p`. -/
def countLeading (p : Char → Bool) : List Char → Nat
  | [] => 0
  | c :: cs => if p c then countLeading p cs + 1 else 0

def matchRE : RE → List Char → List (List Char × Caps)
  | .eps, s => [(s, [])]
  | .lit c, s =>
    match s with
    | [] => []
    | x :: xs => if x = c then [(xs, ([] : Caps))] else []
  | .cls p, s =>
    match s with
    | [] => []
    | x :: xs => if p x then [(xs, ([] : Caps))] else []
  | .cat a b, s =>
    (matchRE a s).flatMap fun rc =>
      (matchRE b rc.1).map fun rc2 => (rc2.1, rc.2 ++ rc2.2)
  | .star p greedy, s =>
    let opts := (List.range (countLeading p s + 1)).map fun i => (s.drop i, ([] : Caps))
    if greedy then opts.reverse else opts
  | .grp n a, s =>
    (matchRE a s).map fun rc => (rc.1, (n, s.take (s.length - rc.1.length)) :: rc.2)

/-- `re.search`: leftmost start position whose match attempt succeeds,
returning the first (engine-order) match's captures. -/
def reSearch (r : RE) : List Char → Option Caps
  | [] => ((matchRE r []).head?).map Prod.snd
  | c :: xs =>
    match (matchRE r (c :: xs)).head? with
    | some rc => some rc.2
    | none => reSearch r xs

/-- A literal word as a regex. -/
def lits : List Char → RE
  | [] => .eps
  | c :: cs => .cat (.lit c) (lits cs)

/-- `p+` (one or more characters of a class). -/
def plusRE (p : Char → Bool) : RE := .cat (.cls p) (.star p true)

/-- `\d+[,.]\d+`, the locale-tolerant decimal number. -/
def numRE : RE := .cat (plusRE isDigitC) (.cat (.cls sepC) (plusRE isDigitC))

/-- `%Cpu\(s\):\s*.*?(\d+[,.]\d+)\s+id`  (parsers.py, parse_cpu_usage). -/
def cpuRE : RE :=
  .cat (lits "%Cpu(s):".toList)
    (.cat (.star isSpaceC true)
      (.cat (.star dotC false)
        (.cat (.grp 1 numRE)
          (.cat (plusRE isSpaceC) (lits "id".toList)))))

/-- `MiB Mem\s*:\s*(\d+[,.]\d+)\s+total,\s*(\d+[,.]\d+)\s+free,\s*(\d+[,.]\d+)\s+used,\s*(\d+[,.]\d+)\s+buff/cache`
(parsers.py, parse_memory_usage_from_top). -/
def memRE : RE :=
  .cat (lits "MiB Mem".toList)
    (.cat (.star isSpaceC true)
      (.cat (lits ":".toList)
        (.cat (.star isSpaceC true)
          (.cat (.grp 1 numRE)
            (.cat (plusRE isSpaceC)
              (.cat (lits "total,".toList)
                (.cat (.star isSpaceC true)
                  (.cat (.grp 2 numRE)
                    (.cat (plusRE isSpaceC)
                      (.cat (lits "free,".toList)
                        (.cat (.star isSpaceC true)
                          (.cat (.grp 3 numRE)
                            (.cat (plusRE isSpaceC)
                              (.cat (lits "used,".toList)
                                (.cat (.star isSpaceC true)
                                  (.cat (.grp 4 numRE)
                                    (.cat (plusRE isSpaceC)
                                      (lits "buff/cache".toList))))))))))))))))))

/-! ## Data model (app/models.py, app/config.py) -/

structure ProcessInfo where
  pid : Int
  command : String
  used_gpu_memory_mib : Int
deriving DecidableEq, Repr

structure GpuInfo where
  index : Int
  name : String
  utilization_gpu_percent : Int
  memory_used_mib : Int
  memory_total_mib : Int
  temperature_gpu : Int
  power_limit : ℚ
  power_draw : ℚ
  processes : List ProcessInfo := []
deriving DecidableEq, Repr

structure HostMetrics where
  cpu_usage_percent : Option ℚ := none
  ram_usage_percent : Option ℚ := none
  ram_total_mb : Option Int := none
  ram_used_mb : Option Int := none
deriving DecidableEq, Repr

structure HostStatus where
  hostname : String
  status : String
  error_message : Option String := none
  metrics : Option HostMetrics := none
  gpus : Option (List GpuInfo) := none
deriving DecidableEq, Repr

structure MonitoredHostConfig where
  «alias» : String
  check_gpu : Bool := true
deriving DecidableEq, Repr

structure HostConnectionDetails where
  hostname : String
  user : String
  jump_host_alias : Option String := none
deriving DecidableEq, Repr

/-- The dict returned by parse_memory_usage_from_top. -/
structure MemInfo where
  ram_total_mb : Int
  ram_used_mb : Int
  ram_usage_percent : ℚ
deriving DecidableEq, Repr

/-! ## Output parser (app/parsers.py) -/

/-- parse_cpu_usage: locate the idle percentage before " id" in `top -bn1`
output (either decimal separator), usage = round(100 - idle, 1); None when
the line is missing or unparsable. -/
def parse_cpu_usage (top_output : String) : Option ℚ :=
  match reSearch cpuRE top_output.toList with
  | none => none
  | some caps =>
    match caps.lookup 1 with
    | none => none
    | some g =>
      match pyFloat (g.map commaToDot) with
      | none => none
      | some idle => some (round1 (100 - idle))

/-- parse_memory_usage_from_top: locate the `MiB Mem :` line; group 1 is
total, group 3 is used (groups 2 and 4 are matched but unused). -/
def parse_memory_usage_from_top (top_output : String) : Option MemInfo :=
  match reSearch memRE top_output.toList with
  | none => none
  | some caps =>
    match caps.lookup 1, caps.lookup 3 with
    | some g1, some g3 =>
      match pyFloat (g1.map commaToDot), pyFloat (g3.map commaToDot) with
      | some total_mib, some used_mib =>
        some { ram_total_mb := pyTrunc total_mib
               ram_used_mb := pyTrunc used_mib
               ram_usage_percent := if total_mib > 0 then round1 (used_mib / total_mib * 100) else 0 }
      | _, _ => none
    | _, _ => none

/-- parse_host_metrics: combine the two parses; `if not top_output` also
treats the empty string as absent. -/
def parse_host_metrics (top_output : Option String) : Option HostMetrics :=
  match top_output with
  | none => none
  | some t =>
    if t = "" then none
    else
      let cpu := parse_cpu_usage t
      let mem := parse_memory_usage_from_top t
      match cpu, mem with
      | none, none => none
      | _, _ =>
        some { cpu_usage_percent := cpu
               ram_usage_percent := mem.map (·.ram_usage_percent)
               ram_total_mb := mem.map (·.ram_total_mb)
               ram_used_mb := mem.map (·.ram_used_mb) }

/-- A parsed CSV cell: int, float, or string, per the fixed per-key table. -/
inductive FieldVal where
  | i : Int → FieldVal
  | f : ℚ → FieldVal
  | s : String → FieldVal
deriving DecidableEq, Repr

/-- One parsed CSV record (Python dict, in insertion order). -/
abbrev Row := List (String × FieldVal)

/-- The per-field-name coercion table of parse_nvidia_smi_csv. -/
def coerceField (key : String) (v : String) : Option FieldVal :=
  if key = "power.limit" ∨ key = "power.draw" then (pyFloat v.toList).map FieldVal.f
  else if key = "name" ∨ key = "process_name" then some (FieldVal.s v)
  else (pyInt v.toList).map FieldVal.i

/-- Build one record from keys and values; any coercion failure aborts the
whole line (the source's try/except discards the partial dict). -/
def buildRow : List String → List String → Option Row
  | [], [] => some []
  | k :: ks, v :: vs =>
    match coerceField k v with
    | some fv => (buildRow ks vs).map (fun r => (k, fv) :: r)
    | none => none
  | _, _ => none

/-- One line of CSV: split on commas, strip each field, require exact arity,
then coerce. -/
def lineRow (keys : List String) (line : String) : Option Row :=
  let vals := (pySplit ',' line).map pyStrip
  if vals.length = keys.length then buildRow keys vals else none

/-- The source's for-loop with `continue` on malformed lines. -/
def parseCSVLoop (keys : List String) : List String → List Row
  | [] => []
  | l :: ls =>
    match lineRow keys l with
    | some r => r :: parseCSVLoop keys ls
    | none => parseCSVLoop keys ls

/-- parse_nvidia_smi_csv (the `warn_on_empty` flag only controls logging). -/
def parse_nvidia_smi_csv (csv_output : String) (expected_keys : List String)
    (_warn_on_empty : Bool) : List Row :=
  parseCSVLoop expected_keys (pySplitlines (pyStrip csv_output))

def gpuKeys : List String :=
  ["index", "name", "utilization.gpu", "memory.used", "memory.total",
   "temperature.gpu", "power.limit", "power.draw"]

def procKeys : List String := ["pid", "process_name", "used_gpu_memory"]

/-- Sequence a list of Options (the list comprehension aborts on the first
failing ProcessInfo construction, leaving `processes` at its prior `[]`). -/
def seqOpt {α : Type} : List (Option α) → Option (List α)
  | [] => some []
  | none :: _ => none
  | some a :: t => (seqOpt t).map (a :: ·)

/-- ProcessInfo(**proc_data): pydantic validation of the three fields. -/
def mkProcessInfo (row : Row) : Option ProcessInfo :=
  match row.lookup "pid", row.lookup "process_name", row.lookup "used_gpu_memory" with
  | some (.i p), some (.s n), some (.i m) => some ⟨p, n, m⟩
  | _, _, _ => none

/-- GpuInfo(**gpu_data, processes=...): pydantic validation of the 8 fields. -/
def mkGpuInfo (row : Row) (procs : List ProcessInfo) : Option GpuInfo :=
  match row.lookup "index", row.lookup "name", row.lookup "utilization.gpu",
        row.lookup "memory.used", row.lookup "memory.total", row.lookup "temperature.gpu",
        row.lookup "power.limit", row.lookup "power.draw" with
  | some (.i i), some (.s n), some (.i u), some (.i mu), some (.i mt),
    some (.i t), some (.f pl), some (.f pd) => some ⟨i, n, u, mu, mt, t, pl, pd, procs⟩
  | _, _, _, _, _, _, _, _ => none

/-- The per-GPU process attachment of parse_gpu_info: dict value None (or a
missing key, or an empty/falsy dict) leaves `processes` empty. -/
def procsForGpu (row : Row) (pp : Option (List (Int × Option String))) : List ProcessInfo :=
  match row.lookup "index", pp with
  | some (FieldVal.i idx), some d =>
    if d = [] then []
    else
      match d.lookup idx with
      | some (some s) =>
        match seqOpt ((parse_nvidia_smi_csv s procKeys false).map mkProcessInfo) with
        | some ps => ps
        | none => []
      | some none => []
      | none => []
  | _, _ => []

/-- parse_gpu_info: absent base listing (None or empty string) or zero
parsed rows gives None; otherwise a GpuInfo per surviving row. -/
def parse_gpu_info (gpu_query_output : Option String)
    (per_gpu_process_output : Option (List (Int × Option String))) : Option (List GpuInfo) :=
  match gpu_query_output with
  | none => none
  | some s =>
    if s = "" then none
    else
      let rows := parse_nvidia_smi_csv s gpuKeys true
      if rows = [] then none
      else
        let infos := rows.filterMap fun row => mkGpuInfo row (procsForGpu row per_gpu_process_output)
        if infos = [] then none else some infos

/-! ## Status collector (app/metrics.py)

The remote executor (`run_ssh_command_async`) is consumed through the tuple
contract (exit code, stdout, stderr); it is passed in as a deterministic
oracle `Exec` mapping (alias, command) to that tuple, which shallowly embeds
one poll cycle's remote results. -/

abbrev Exec := String → String → Int × Option String × Option String

def CHECK_REACHABILITY_CMD : String := "exit 0"
def CHECK_NVIDIA_SMI_CMD : String := "command -v nvidia-smi"
def TOP_CMD : String := "top -bn1"
def NVIDIA_SMI_GPU_QUERY_CMD : String :=
  "nvidia-smi --query-gpu=index,name,utilization.gpu,memory.used,memory.total,temperature.gpu,power.limit,power.draw --format=csv,noheader,nounits"

def procQueryCmd (index : Int) : String :=
  "nvidia-smi -i " ++ toString index ++
  " --query-compute-apps=pid,process_name,used_gpu_memory --format=csv,noheader,nounits"

/-- Python's `stderr or 'N/A'` (None and the empty string give the fallback). -/
def strOrNA (o : Option String) : String :=
  match o with
  | some s => if s = "" then "N/A" else s
  | none => "N/A"

def joinSemi (l : List String) : String := String.intercalate "; " l

def check_host_reachability (exec : Exec) (host_alias : String) : Bool × Option String :=
  let r := exec host_alias CHECK_REACHABILITY_CMD
  if r.1 = 0 then (true, none)
  else (false, some ("Host alias " ++ host_alias ++ " unreachable (SSH rc=" ++
                     toString r.1 ++ "). Stderr: " ++ strOrNA r.2.2))

/-- check_nvidia_smi: found iff rc = 0 and stdout is truthy with truthy
strip; the diagnostic is surfaced only when rc differs from 1 (rc = 1 means
the tool is merely absent, which is expected). -/
def check_nvidia_smi (exec : Exec) (host_alias : String) : Bool × Option String :=
  let r := exec host_alias CHECK_NVIDIA_SMI_CMD
  let stdoutTruthy : Bool :=
    match r.2.1 with
    | some s => s != "" && pyStrip s != ""
    | none => false
  if r.1 = 0 ∧ stdoutTruthy then (true, none)
  else
    let error_msg := "nvidia-smi not found or check failed on " ++ host_alias ++
                     " (rc=" ++ toString r.1 ++ "). Stderr: " ++ strOrNA r.2.2
    (false, if r.1 ≠ 1 then some error_msg else none)

/-- get_host_metrics: only an executor failure (rc ≠ 0) produces an error
message; parse failure silently yields absent metrics. -/
def get_host_metrics (exec : Exec) (host_alias : String) : Option HostMetrics × Option String :=
  let r := exec host_alias TOP_CMD
  let top_output : Option String := if r.1 = 0 then r.2.1 else none
  let error_messages : List String :=
    if r.1 = 0 then []
    else ["Failed to get top output from " ++ host_alias ++ " (rc=" ++
          toString r.1 ++ "). Stderr: " ++ strOrNA r.2.2]
  (parse_host_metrics top_output,
   if error_messages = [] then none else some (joinSemi error_messages))

/-- The per-index process-result classification of get_gpu_info: builds the
per-GPU dict (in index order) and the accumulated error messages. -/
def gpuProcFold (exec : Exec) (host_alias : String) (idxs : List Int) :
    List (Int × Option String) × List String :=
  idxs.foldl
    (fun acc i =>
      let r := exec host_alias (procQueryCmd i)
      if r.1 = 0 then (acc.1 ++ [(i, r.2.1)], acc.2)
      else
        let noProc : Bool :=
          match r.2.2 with
          | some s => hasSub "No running processes found".toList s.toList
          | none => false
        if noProc then (acc.1 ++ [(i, some "")], acc.2)
        else
          (acc.1 ++ [(i, none)],
           acc.2 ++ ["Failed to get nvidia-smi process query for GPU " ++ toString i ++
                     " on " ++ host_alias ++ " (rc=" ++ toString r.1 ++
                     "). Stderr: " ++ strOrNA r.2.2]))
    ([], [])

/-- get_gpu_info: presence probe, base listing, per-index process queries,
combined parse.  `final_error = smi_check_error or combined_error`. -/
def get_gpu_info (exec : Exec) (host_alias : String) : Option (List GpuInfo) × Option String :=
  let c := check_nvidia_smi exec host_alias
  if c.1 = false then (none, c.2)
  else
    let rg := exec host_alias NVIDIA_SMI_GPU_QUERY_CMD
    if rg.1 ≠ 0 then
      (none, some ("Failed to get nvidia-smi GPU query from " ++ host_alias ++
                   " (rc=" ++ toString rg.1 ++ "). Stderr: " ++ strOrNA rg.2.2))
    else
      -- asyncssh delivers a string stdout for every completed command, so a
      -- missing stdout cannot occur with rc = 0; "" is used for that corner.
      let gq := rg.2.1.getD ""
      let rows := parse_nvidia_smi_csv gq gpuKeys false
      let idxs : List Int := rows.filterMap fun row =>
        match row.lookup "index" with
        | some (FieldVal.i i) => some i
        | _ => none
      let pe := gpuProcFold exec host_alias idxs
      let gpu_info := parse_gpu_info rg.2.1 (some pe.1)
      let combined_error := if pe.2 = [] then none else some (joinSemi pe.2)
      (gpu_info, match c.2 with | some e => some e | none => combined_error)

/-- get_full_host_status: reachability gate, then the metrics and (policy
permitting) accelerator sub-checks; sub-check diagnostics are joined with
"; " into error_message, except GPU diagnostics containing
"nvidia-smi not found". -/
def get_full_host_status (exec : Exec) (host_config : MonitoredHostConfig) : HostStatus :=
  let host_alias := host_config.«alias»
  let r := check_host_reachability exec host_alias
  if r.1 = false then
    { hostname := host_alias, status := "down",
      error_message := some (r.2.getD ("Host alias " ++ host_alias ++ " unreachable")) }
  else
    let m := get_host_metrics exec host_alias
    let metricsErrs : List String :=
      match m.2 with
      | some e => ["Metrics Error: " ++ e]
      | none => []
    let gpuPart : Option (List GpuInfo) × List String :=
      if host_config.check_gpu then
        let g := get_gpu_info exec host_alias
        (g.1,
         match g.2 with
         | some e =>
           if hasSub "nvidia-smi not found".toList e.toList then [] else ["GPU Error: " ++ e]
         | none => [])
      else (none, [])
    let all_errors := metricsErrs ++ gpuPart.2
    { hostname := host_alias, status := "up",
      error_message := if all_errors = [] then none else some (joinSemi all_errors),
      metrics := m.1, gpus := gpuPart.1 }

/-! ## Fleet collection (app/api.py)

periodic_status_fetch (lines 62-112) and get_status (lines 228-288) run the
same gating algorithm; it is modelled once.  `checkHost` stands for
check_host_concurrently (which never raises: it converts exceptions into an
"error" HostStatus).  The third component records, in order, the aliases of
the member hosts on which a check was invoked — the "executor calls for
members" observable; in the skipped branch no member check is performed. -/

def collect_fleet_status (jump_host : Option String)
    (monitored_hosts_config : List MonitoredHostConfig)
    (checkHost : MonitoredHostConfig → HostStatus) :
    Option HostStatus × List HostStatus × List String :=
  match jump_host with
  | none => (none, monitored_hosts_config.map checkHost,
             monitored_hosts_config.map (·.«alias»))
  | some jh =>
    if jh = "" then
      -- Python `if jump_host:` treats the empty string as unconfigured
      (none, monitored_hosts_config.map checkHost,
       monitored_hosts_config.map (·.«alias»))
    else
      let js := checkHost { «alias» := jh, check_gpu := false }
      if js.status = "up" then
        (some js, monitored_hosts_config.map checkHost,
         monitored_hosts_config.map (·.«alias»))
      else
        (some js,
         monitored_hosts_config.map fun hc =>
           { hostname := hc.«alias», status := "skipped",
             error_message := some (jh ++ " down") },
         [])

/-! ## Broadcast hub (app/api.py, StatusCache) -/

/-- Per-client queues live outside the cache object; a queue is identified
by a number and its contents is the ordered list of enqueued messages. -/
abbrev Queues := Nat → List String

structure StatusCache where
  latest_status_data : Option String
  latest_status_timestamp : Option String
  connected_clients : Finset Nat
  client_activity_event : Bool
deriving DecidableEq

def update_status (c : StatusCache) (data timestamp : String) : StatusCache :=
  { c with latest_status_data := some data, latest_status_timestamp := some timestamp }

/-- json.dumps of the wire dict; the snapshot payload is carried as its
already-serialized JSON text. -/
def jsonWrap (data : String) (ts : Option String) : String :=
  "\x7b\"data\": " ++ data ++ ", \"last_updated\": " ++
  (match ts with | some t => "\"" ++ t ++ "\"" | none => "null") ++ "\x7d"

def get_latest_status_message (c : StatusCache) : Option String :=
  c.latest_status_data.map fun d =>
    "data: " ++ jsonWrap d c.latest_status_timestamp ++ "\n\n"

def add_client (c : StatusCache) (q : Nat) : StatusCache :=
  { c with connected_clients := insert q c.connected_clients,
           client_activity_event := true }

def remove_client (c : StatusCache) (q : Nat) : StatusCache :=
  if q ∈ c.connected_clients then
    { c with connected_clients := c.connected_clients.erase q }
  else c

/-- broadcast: enqueue the message to every currently-registered client. -/
def broadcast (c : StatusCache) (qs : Queues) (message : String) : Queues :=
  fun q => if q ∈ c.connected_clients then qs q ++ [message] else qs q

/-- The registration prefix of get_status_sse: add the client's queue, then
enqueue the cached snapshot message if one exists. -/
def subscribe (c : StatusCache) (qs : Queues) (q : Nat) : StatusCache × Queues :=
  let c' := add_client c q
  match get_latest_status_message c' with
  | some m => (c', fun r => if r = q then qs r ++ [m] else qs r)
  | none => (c', qs)

/-! ## Scheduler wait selection (app/api.py, periodic_status_fetch lines 132-171)

One loop iteration distilled to its observable wait decision.  The first
try/except only logs a collection failure (`_collectRaises`); the 60-second
fallback sleep lives in the except branch of the second try block, i.e. it
is taken only when the sleep/wait logic itself raises unexpectedly. -/

inductive WaitSpec where
  | fixedSleep : Nat → WaitSpec
  | interruptible : Nat → WaitSpec
  | fallbackSleep : Nat → WaitSpec
deriving DecidableEq, Repr

def scheduler_iteration (_collectRaises : Bool) (hasClients : Bool)
    (refresh_interval_clients_sec refresh_interval_no_clients_sec : Nat)
    (waitLogicRaises : Bool) : WaitSpec :=
  if waitLogicRaises then WaitSpec.fallbackSleep 60
  else if hasClients then WaitSpec.fixedSleep refresh_interval_clients_sec
  else WaitSpec.interruptible refresh_interval_no_clients_sec

/-! ## Remote executor implementation (app/ssh_utils.py)

run_ssh_command_async's failure handling.  The environment/connection layer
is an oracle: the key environment variable, the key import outcome, the
loaded host_details map, and the outcome of the connect/run block (one value
per call, covering the direct and jump-tunneled paths alike). -/

inductive SshFailure where
  | sshErr : String → SshFailure
  | timeout : SshFailure
  | other : String → SshFailure

structure SshEnv where
  key_env : Option String
  importKey : String → Except String Unit
  host_details : String → Option HostConnectionDetails
  connectRun : Except SshFailure (Int × Option String × Option String)

def run_ssh_command_async (env : SshEnv) (host_alias : String) (_command : String) :
    Int × Option String × Option String :=
  let proceed : Int × Option String × Option String :=
    match env.connectRun with
    | .ok r => r
    | .error (.sshErr e) => (-1, none, some ("SSH Error: " ++ e))
    | .error .timeout => (-4, none, some "SSH command or connection timed out")
    | .error (.other e) => (-5, none, some ("Unexpected Error: " ++ e))
  match env.key_env with
  | none => (-3, none, some "SSH_PRIVATE_KEY environment variable not set.")
  | some k =>
    if k = "" then (-3, none, some "SSH_PRIVATE_KEY environment variable not set.")
    else
      match env.importKey k with
      | .error e => (-3, none, some ("Failed to import private key: " ++ e))
      | .ok _ =>
        match env.host_details host_alias with
        | none => (-2, none, some ("Host alias \x27" ++ host_alias ++
                                   "\x27 not found in configuration."))
        | some target_details =>
          match target_details.jump_host_alias with
          | some jump_alias =>
            match env.host_details jump_alias with
            | none => (-2, none, some ("Jump host alias \x27" ++ jump_alias ++
                                       "\x27 not found in configuration."))
            | some _ => proceed
          | none => proceed

/-! ## Engine lemmas: the first (engine-order) match of each combinator -/

def mhead (r : RE) (s : List Char) : Option (List Char × Caps) :=
  (matchRE r s).head?

theorem mhead_eps (s : List Char) : mhead .eps s = some (s, []) := rfl

theorem mhead_lit (c : Char) (s : List Char) : mhead (.lit c) (c :: s) = some (s, []) := by
  simp [mhead, matchRE]

theorem mhead_cls {p : Char → Bool} {c : Char} (s : List Char) (h : p c = true) :
    mhead (.cls p) (c :: s) = some (s, []) := by
  simp [mhead, matchRE, h]

theorem mhead_cat {a b : RE} {s r1 r2 : List Char} {c1 c2 : Caps}
    (h1 : mhead a s = some (r1, c1)) (h2 : mhead b r1 = some (r2, c2)) :
    mhead (.cat a b) s = some (r2, c1 ++ c2) := by
  unfold mhead at *
  cases ha : matchRE a s with
  | nil => simp [ha] at h1
  | cons x t =>
    rw [ha] at h1
    simp at h1
    cases hb : matchRE b r1 with
    | nil => simp [hb] at h2
    | cons y t2 =>
      rw [hb] at h2
      simp at h2
      simp [matchRE, ha, h1, hb, h2]

theorem mhead_lits : ∀ (w s : List Char), mhead (lits w) (w ++ s) = some (s, []) := by
  intro w
  induction w with
  | nil => intro s; simp [lits, mhead_eps]
  | cons c cs ih =>
    intro s
    have := mhead_cat (mhead_lit c (cs ++ s)) (ih s)
    simpa [lits] using this

theorem countLeading_append {p : Char → Bool} {u : List Char} (v : List Char)
    (hu : ∀ c ∈ u, p c = true) :
    countLeading p (u ++ v) = u.length + countLeading p v := by
  induction u with
  | nil => simp [countLeading]
  | cons c cs ih =>
    have hc : p c = true := hu c (by simp)
    have ihs : countLeading p (cs ++ v) = cs.length + countLeading p v :=
      ih (fun d hd => hu d (by simp [hd]))
    simp [countLeading, hc, ihs]
    omega

theorem countLeading_boundary {p : Char → Bool} {u v : List Char}
    (hu : ∀ c ∈ u, p c = true) (hv : ∀ c, v.head? = some c → p c = false) :
    countLeading p (u ++ v) = u.length := by
  have h1 := countLeading_append v hu
  have h2 : countLeading p v = 0 := by
    cases v with
    | nil => simp [countLeading]
    | cons c cs =>
      have := hv c rfl
      simp [countLeading, this]
  omega

theorem mhead_starG {p : Char → Bool} {s : List Char} {k : Nat}
    (h : countLeading p s = k) :
    mhead (.star p true) s = some (s.drop k, []) := by
  simp only [mhead, matchRE, h]
  rw [List.range_succ]
  simp

theorem mhead_starG_boundary {p : Char → Bool} {u v : List Char}
    (hu : ∀ c ∈ u, p c = true) (hv : ∀ c, v.head? = some c → p c = false) :
    mhead (.star p true) (u ++ v) = some (v, []) := by
  have := mhead_starG (countLeading_boundary hu hv)
  simpa using this

theorem mhead_starL {p : Char → Bool} (s : List Char) :
    mhead (.star p false) s = some (s, []) := by
  simp only [mhead, matchRE]
  rw [List.range_succ_eq_map]
  simp

theorem mhead_grp {n : Nat} {a : RE} {g r : List Char} {c : Caps}
    (h : mhead a (g ++ r) = some (r, c)) :
    mhead (.grp n a) (g ++ r) = some (r, (n, g) :: c) := by
  unfold mhead at *
  cases ha : matchRE a (g ++ r) with
  | nil => simp [ha] at h
  | cons x t =>
    rw [ha] at h
    simp at h
    simp [matchRE, ha, h]

theorem mhead_plus {p : Char → Bool} {u v : List Char}
    (hne : u ≠ []) (hu : ∀ c ∈ u, p c = true) (hv : ∀ c, v.head? = some c → p c = false) :
    mhead (plusRE p) (u ++ v) = some (v, []) := by
  cases u with
  | nil => exact absurd rfl hne
  | cons e u' =>
    have h1 : mhead (.cls p) (e :: (u' ++ v)) = some (u' ++ v, []) :=
      mhead_cls _ (hu e (by simp))
    have h2 : mhead (.star p true) (u' ++ v) = some (v, []) :=
      mhead_starG_boundary (fun c hc => hu c (by simp [hc])) hv
    have := mhead_cat h1 h2
    simpa [plusRE] using this

/-! ## Character-class facts -/

theorem digit_not_space {c : Char} (h : isDigitC c = true) : isSpaceC c = false := by
  by_contra hc
  have hc' : isSpaceC c = true := by
    cases hx : isSpaceC c with
    | false => exact absurd hx hc
    | true => rfl
  simp [isSpaceC] at hc'
  rcases hc' with ((((h1 | h1) | h1) | h1) | h1) | h1 <;>
    (subst h1; exact absurd h (by decide))

theorem sep_not_digit {c : Char} (h : sepC c = true) : isDigitC c = false := by
  simp [sepC] at h
  rcases h with h1 | h1 <;> (subst h1; decide)

theorem digit_ne_dot {c : Char} (h : isDigitC c = true) : (c != '.') = true := by
  cases hx : c == '.' with
  | false => simp [bne, hx]
  | true =>
    have : c = '.' := by simpa using hx
    subst this
    exact absurd h (by decide)

theorem digit_commaToDot {c : Char} (h : isDigitC c = true) : commaToDot c = c := by
  unfold commaToDot
  split
  · next hc => subst hc; exact absurd h (by decide)
  · rfl

theorem sep_commaToDot {c : Char} (h : sepC c = true) : commaToDot c = '.' := by
  simp [sepC] at h
  rcases h with h1 | h1 <;> (subst h1; rfl)

theorem map_commaToDot_digits {d : List Char} (h : ∀ c ∈ d, isDigitC c = true) :
    d.map commaToDot = d := by
  induction d with
  | nil => rfl
  | cons c cs ih =>
    have hc := digit_commaToDot (h c (by simp))
    have ihs := ih (fun e he => h e (by simp [he]))
    simp [hc, ihs]

/-! ## Matching the locale-tolerant number -/

theorem mhead_num {d1 d2 v : List Char} {sep : Char}
    (h1 : d1 ≠ []) (ha1 : ∀ c ∈ d1, isDigitC c = true)
    (hs : sepC sep = true)
    (h2 : d2 ≠ []) (ha2 : ∀ c ∈ d2, isDigitC c = true)
    (hv : ∀ c, v.head? = some c → isDigitC c = false) :
    mhead numRE (d1 ++ (sep :: (d2 ++ v))) = some (v, []) := by
  have hp1 : mhead (plusRE isDigitC) (d1 ++ (sep :: (d2 ++ v))) =
      some (sep :: (d2 ++ v), []) := by
    apply mhead_plus h1 ha1
    intro c hc
    simp at hc
    subst hc
    exact sep_not_digit hs
  have hsep : mhead (.cls sepC) (sep :: (d2 ++ v)) = some (d2 ++ v, []) :=
    mhead_cls _ hs
  have hp2 : mhead (plusRE isDigitC) (d2 ++ v) = some (v, []) :=
    mhead_plus h2 ha2 hv
  have := mhead_cat hp1 (mhead_cat hsep hp2)
  simpa [numRE] using this

theorem mhead_grpnum {n : Nat} {d1 d2 v : List Char} {sep : Char}
    (h1 : d1 ≠ []) (ha1 : ∀ c ∈ d1, isDigitC c = true)
    (hs : sepC sep = true)
    (h2 : d2 ≠ []) (ha2 : ∀ c ∈ d2, isDigitC c = true)
    (hv : ∀ c, v.head? = some c → isDigitC c = false) :
    mhead (.grp n numRE) ((d1 ++ sep :: d2) ++ v) = some (v, [(n, d1 ++ sep :: d2)]) := by
  have hn : mhead numRE ((d1 ++ sep :: d2) ++ v) = some (v, []) := by
    have := mhead_num h1 ha1 hs h2 ha2 hv
    simpa [List.append_assoc] using this
  exact mhead_grp hn

/-! ## pyFloat on the captured decimal -/

theorem stripSign_no_sign {cs : List Char}
    (h : ∀ c, cs.head? = some c → c ≠ '+' ∧ c ≠ '-') : stripSign cs = (false, cs) := by
  cases cs with
  | nil => rfl
  | cons c r =>
    have hc := h c rfl
    unfold stripSign
    simp [hc.1, hc.2]

theorem takeWhile_append_all {p : Char → Bool} {u : List Char} (v : List Char)
    (hu : ∀ c ∈ u, p c = true) :
    (u ++ v).takeWhile p = u ++ v.takeWhile p := by
  induction u with
  | nil => simp
  | cons c cs ih =>
    have hc := hu c (by simp)
    have ihs := ih (fun e he => hu e (by simp [he]))
    simp [List.takeWhile, hc, ihs]

theorem dropWhile_append_all {p : Char → Bool} {u : List Char} (v : List Char)
    (hu : ∀ c ∈ u, p c = true) :
    (u ++ v).dropWhile p = v.dropWhile p := by
  induction u with
  | nil => simp
  | cons c cs ih =>
    have hc := hu c (by simp)
    have ihs := ih (fun e he => hu e (by simp [he]))
    simp [List.dropWhile, hc, ihs]

/-- Exact value of a `digits sep digits` field. -/
def decVal (d1 d2 : List Char) : ℚ :=
  (digitsToNat d1 : ℚ) + (digitsToNat d2 : ℚ) / (10 : ℚ) ^ d2.length

theorem pyFloat_decimal {d1 d2 : List Char}
    (h1 : d1 ≠ []) (ha1 : ∀ c ∈ d1, isDigitC c = true)
    (ha2 : ∀ c ∈ d2, isDigitC c = true) :
    pyFloat (d1 ++ '.' :: d2) = some (decVal d1 d2) := by
  obtain ⟨e, d1', rfl⟩ := List.exists_cons_of_ne_nil h1
  have he : isDigitC e = true := ha1 e (by simp)
  have hsgn : stripSign ((e :: d1') ++ '.' :: d2) = (false, (e :: d1') ++ '.' :: d2) := by
    apply stripSign_no_sign
    intro c hc
    simp at hc
    subst hc
    constructor
    · intro hx; subst hx; exact absurd he (by decide)
    · intro hx; subst hx; exact absurd he (by decide)
  have htake : ((e :: d1') ++ '.' :: d2).takeWhile (fun c => c != '.') = e :: d1' := by
    rw [takeWhile_append_all _ (fun c hc => digit_ne_dot (ha1 c hc))]
    simp [List.takeWhile]
  have hdrop : ((e :: d1') ++ '.' :: d2).dropWhile (fun c => c != '.') = '.' :: d2 := by
    rw [dropWhile_append_all _ (fun c hc => digit_ne_dot (ha1 c hc))]
    simp [List.dropWhile]
  unfold pyFloat
  rw [hsgn]
  simp only [htake, hdrop]
  have hall1 : (e :: d1').all isDigitC = true := List.all_eq_true.mpr ha1
  have hall2 : d2.all isDigitC = true := List.all_eq_true.mpr ha2
  simp [hall1, hall2, decVal]

/-! ## C2: the cpu regex on a line with an arbitrary idle field -/

/-- Monitor text whose idle field is `d1 sep d2`. -/
def mkCpuText (d1 : List Char) (sep : Char) (d2 : List Char) : String :=
  String.mk ("%Cpu(s):".toList ++ (' ' :: ((d1 ++ sep :: d2) ++ (' ' :: "id".toList))))

theorem cpu_match {d1 d2 : List Char} {sep : Char}
    (h1 : d1 ≠ []) (ha1 : ∀ c ∈ d1, isDigitC c = true)
    (hs : sepC sep = true)
    (h2 : d2 ≠ []) (ha2 : ∀ c ∈ d2, isDigitC c = true) :
    mhead cpuRE ("%Cpu(s):".toList ++ (' ' :: ((d1 ++ sep :: d2) ++ (' ' :: "id".toList))))
      = some ([], [(1, d1 ++ sep :: d2)]) := by
  obtain ⟨e, d1', rfl⟩ := List.exists_cons_of_ne_nil h1
  have he : isDigitC e = true := ha1 e (by simp)
  have hA : mhead (lits "%Cpu(s):".toList)
      ("%Cpu(s):".toList ++ (' ' :: (((e :: d1') ++ sep :: d2) ++ (' ' :: "id".toList))))
      = some (' ' :: (((e :: d1') ++ sep :: d2) ++ (' ' :: "id".toList)), []) :=
    mhead_lits _ _
  have hB : mhead (.star isSpaceC true)
      (' ' :: (((e :: d1') ++ sep :: d2) ++ (' ' :: "id".toList)))
      = some (((e :: d1') ++ sep :: d2) ++ (' ' :: "id".toList), []) := by
    have := mhead_starG_boundary (p := isSpaceC)
      (u := [' ']) (v := ((e :: d1') ++ sep :: d2) ++ (' ' :: "id".toList))
      (by intro c hc; simp at hc; subst hc; decide)
      (by intro c hc; simp at hc; subst hc; exact digit_not_space he)
    simpa using this
  have hC : mhead (.star dotC false)
      (((e :: d1') ++ sep :: d2) ++ (' ' :: "id".toList))
      = some (((e :: d1') ++ sep :: d2) ++ (' ' :: "id".toList), []) :=
    mhead_starL _
  have hD : mhead (.grp 1 numRE) (((e :: d1') ++ sep :: d2) ++ (' ' :: "id".toList))
      = some (' ' :: "id".toList, [(1, (e :: d1') ++ sep :: d2)]) := by
    apply mhead_grpnum (by simp) ha1 hs h2 ha2
    intro c hc
    simp at hc
    subst hc
    decide
  have hE : mhead (plusRE isSpaceC) (' ' :: "id".toList) = some ("id".toList, []) := by
    have := mhead_plus (p := isSpaceC) (u := [' ']) (v := "id".toList)
      (by simp)
      (by intro c hc; simp at hc; subst hc; decide)
      (by intro c hc; simp at hc; subst hc; decide)
    simpa using this
  have hF : mhead (lits "id".toList) "id".toList = some ([], []) := by
    have := mhead_lits "id".toList []
    simpa using this
  have hEF := mhead_cat hE hF
  have hDEF := mhead_cat hD hEF
  have hCDEF := mhead_cat hC hDEF
  have hBCDEF := mhead_cat hB hCDEF
  have hfull := mhead_cat hA hBCDEF
  simpa [cpuRE] using hfull

theorem cpu_search {d1 d2 : List Char} {sep : Char}
    (h1 : d1 ≠ []) (ha1 : ∀ c ∈ d1, isDigitC c = true)
    (hs : sepC sep = true)
    (h2 : d2 ≠ []) (ha2 : ∀ c ∈ d2, isDigitC c = true) :
    reSearch cpuRE (mkCpuText d1 sep d2).toList = some [(1, d1 ++ sep :: d2)] := by
  have hm := cpu_match h1 ha1 hs h2 ha2
  unfold mhead at hm
  have hcons : (mkCpuText d1 sep d2).toList
      = '%' :: ("Cpu(s):".toList ++ (' ' :: ((d1 ++ sep :: d2) ++ (' ' :: "id".toList)))) := rfl
  have hm' : (matchRE cpuRE
      ('%' :: ("Cpu(s):".toList ++ (' ' :: ((d1 ++ sep :: d2) ++ (' ' :: "id".toList)))))).head?
      = some ([], [(1, d1 ++ sep :: d2)]) := hm
  rw [hcons]
  simp only [reSearch, hm']

/-! ## C2: no match without the literal head -/

theorem matchRE_cat_nil {a b : RE} {s : List Char} (h : matchRE a s = []) :
    matchRE (.cat a b) s = [] := by
  simp [matchRE, h]

theorem matchRE_cpu_nil : matchRE cpuRE [] = [] := rfl

theorem matchRE_cpu_head {c : Char} (xs : List Char) (hc : c ≠ '%') :
    matchRE cpuRE (c :: xs) = [] := by
  have hlit : matchRE (.lit '%') (c :: xs) = [] := by
    simp [matchRE, hc]
  exact matchRE_cat_nil (matchRE_cat_nil hlit)

theorem reSearch_cpu_none : ∀ (l : List Char), (∀ c ∈ l, c ≠ '%') →
    reSearch cpuRE l = none := by
  intro l
  induction l with
  | nil => intro _; rfl
  | cons c xs ih =>
    intro h
    have hc : c ≠ '%' := h c (by simp)
    have hm := matchRE_cpu_head xs hc
    simp only [reSearch, hm, List.head?]
    exact ih (fun e he => h e (by simp [he]))

/-- C2: parse_cpu_usage on monitor text whose idle field is `d1 sep d2`
(either decimal separator) returns round(100 - idle, 1); on text without the
expected line (here: no `%` at all, so the pattern cannot begin) it returns
none; being a total Lean function of the input string it never raises; and
on the comma-locale example line with idle `97,9` it returns `2.1`. -/
theorem parse_cpu_usage_spec :
    (∀ (d1 d2 : List Char) (sep : Char),
      d1 ≠ [] → d2 ≠ [] →
      (∀ c ∈ d1, isDigitC c = true) → (∀ c ∈ d2, isDigitC c = true) →
      sepC sep = true →
      parse_cpu_usage (mkCpuText d1 sep d2) = some (round1 (100 - decVal d1 d2)))
    ∧ (∀ s : String, (∀ c ∈ s.toList, c ≠ '%') → parse_cpu_usage s = none)
    ∧ parse_cpu_usage "%Cpu(s):  0,0 us,  0,5 sy,  0,0 ni, 97,9 id,  0,1 wa"
        = some (21 / 10 : ℚ) := by
  refine ⟨?_, ?_, ?_⟩
  · intro d1 d2 sep h1 h2 ha1 ha2 hs
    have hsr := cpu_search h1 ha1 hs h2 ha2
    have hmap : (d1 ++ sep :: d2).map commaToDot = d1 ++ '.' :: d2 := by
      rw [List.map_append, List.map_cons, map_commaToDot_digits ha1,
          map_commaToDot_digits ha2, sep_commaToDot hs]
    unfold parse_cpu_usage
    rw [hsr]
    simp only [List.lookup, beq_self_eq_true, hmap, pyFloat_decimal h1 ha1 ha2]
  · intro s h
    unfold parse_cpu_usage
    rw [reSearch_cpu_none s.toList h]
  · with_unfolding_all rfl

theorem parse_cpu_usage_spec_witness :
    ("97".toList ≠ ([] : List Char) ∧ "9".toList ≠ ([] : List Char) ∧
      (∀ c ∈ "97".toList, isDigitC c = true) ∧ (∀ c ∈ "9".toList, isDigitC c = true) ∧
      sepC ',' = true) ∧
    parse_cpu_usage (mkCpuText "97".toList ',' "9".toList)
      = some (round1 (100 - decVal "97".toList "9".toList)) ∧
    parse_cpu_usage "top - up 10 days" = none :=
  ⟨by decide,
   parse_cpu_usage_spec.1 "97".toList "9".toList ','
     (by decide) (by decide) (by decide) (by decide) (by decide),
   parse_cpu_usage_spec.2.1 "top - up 10 days" (by decide)⟩

/-! ## C7: the memory regex on a line with arbitrary total/used fields -/

theorem mhead_star_space {v : List Char} {c : Char}
    (hc : v.head? = some c) (h : isSpaceC c = false) :
    mhead (.star isSpaceC true) (' ' :: v) = some (v, []) := by
  have := mhead_starG_boundary (p := isSpaceC) (u := [' ']) (v := v)
    (by intro x hx; simp at hx; subst hx; decide)
    (by intro x hx; rw [hc] at hx; simp at hx; subst hx; exact h)
  simpa using this

theorem mhead_plus_space {v : List Char} {c : Char}
    (hc : v.head? = some c) (h : isSpaceC c = false) :
    mhead (plusRE isSpaceC) (' ' :: v) = some (v, []) := by
  have := mhead_plus (p := isSpaceC) (u := [' ']) (v := v)
    (by simp)
    (by intro x hx; simp at hx; subst hx; decide)
    (by intro x hx; rw [hc] at hx; simp at hx; subst hx; exact h)
  simpa using this

/-- Monitor memory line with the total field `t1 st t2` and used field
`u1 su u2` (free and buff/cache kept concrete: the source discards them). -/
def mkMemText (t1 t2 u1 u2 : List Char) (st su : Char) : String :=
  String.mk ("MiB Mem".toList ++ ' ' :: ':' :: ' ' ::
    ((t1 ++ st :: t2) ++ ' ' :: ("total,".toList ++ ' ' ::
      (("15063".toList ++ '.' :: "5".toList) ++ ' ' :: ("free,".toList ++ ' ' ::
        ((u1 ++ su :: u2) ++ ' ' :: ("used,".toList ++ ' ' ::
          (("47641".toList ++ '.' :: "3".toList) ++ ' ' :: "buff/cache".toList))))))))

theorem mem_match {t1 t2 u1 u2 : List Char} {st su : Char}
    (ht1 : t1 ≠ []) (hat1 : ∀ c ∈ t1, isDigitC c = true)
    (hst : sepC st = true)
    (ht2 : t2 ≠ []) (hat2 : ∀ c ∈ t2, isDigitC c = true)
    (hu1 : u1 ≠ []) (hau1 : ∀ c ∈ u1, isDigitC c = true)
    (hsu : sepC su = true)
    (hu2 : u2 ≠ []) (hau2 : ∀ c ∈ u2, isDigitC c = true) :
    mhead memRE (mkMemText t1 t2 u1 u2 st su).toList
      = some ([], [(1, t1 ++ st :: t2), (2, "15063".toList ++ '.' :: "5".toList),
                   (3, u1 ++ su :: u2), (4, "47641".toList ++ '.' :: "3".toList)]) := by
  obtain ⟨e1, t1', rfl⟩ := List.exists_cons_of_ne_nil ht1
  obtain ⟨f1, u1', rfl⟩ := List.exists_cons_of_ne_nil hu1
  have he1 : isDigitC e1 = true := hat1 e1 (by simp)
  have hf1 : isDigitC f1 = true := hau1 f1 (by simp)
  -- tail segments, innermost first
  have h18 : mhead (lits "buff/cache".toList) "buff/cache".toList = some ([], []) := by
    have := mhead_lits "buff/cache".toList []
    simpa using this
  have h17 : mhead (plusRE isSpaceC) (' ' :: "buff/cache".toList)
      = some ("buff/cache".toList, []) := mhead_plus_space rfl (by decide)
  have hG4 : mhead (.grp 4 numRE)
      (("47641".toList ++ '.' :: "3".toList) ++ ' ' :: "buff/cache".toList)
      = some (' ' :: "buff/cache".toList, [(4, "47641".toList ++ '.' :: "3".toList)]) := by
    apply mhead_grpnum (by decide) (by decide) (by decide) (by decide) (by decide)
    intro c hc
    simp at hc
    subst hc
    decide
  have h15 : mhead (.star isSpaceC true)
      (' ' :: (("47641".toList ++ '.' :: "3".toList) ++ ' ' :: "buff/cache".toList))
      = some (("47641".toList ++ '.' :: "3".toList) ++ ' ' :: "buff/cache".toList, []) :=
    mhead_star_space rfl (by decide)
  have h14 : mhead (lits "used,".toList)
      ("used,".toList ++ ' ' :: (("47641".toList ++ '.' :: "3".toList) ++ ' ' :: "buff/cache".toList))
      = some (' ' :: (("47641".toList ++ '.' :: "3".toList) ++ ' ' :: "buff/cache".toList), []) :=
    mhead_lits _ _
  have h13 : mhead (plusRE isSpaceC)
      (' ' :: ("used,".toList ++ ' ' :: (("47641".toList ++ '.' :: "3".toList) ++ ' ' :: "buff/cache".toList)))
      = some ("used,".toList ++ ' ' :: (("47641".toList ++ '.' :: "3".toList) ++ ' ' :: "buff/cache".toList), []) :=
    mhead_plus_space rfl (by decide)
  have hG3 : mhead (.grp 3 numRE)
      (((f1 :: u1') ++ su :: u2) ++ ' ' :: ("used,".toList ++ ' ' :: (("47641".toList ++ '.' :: "3".toList) ++ ' ' :: "buff/cache".toList)))
      = some (' ' :: ("used,".toList ++ ' ' :: (("47641".toList ++ '.' :: "3".toList) ++ ' ' :: "buff/cache".toList)),
              [(3, (f1 :: u1') ++ su :: u2)]) := by
    apply mhead_grpnum (by simp) hau1 hsu hu2 hau2
    intro c hc
    simp at hc
    subst hc
    decide
  have h11 : mhead (.star isSpaceC true)
      (' ' :: (((f1 :: u1') ++ su :: u2) ++ ' ' :: ("used,".toList ++ ' ' :: (("47641".toList ++ '.' :: "3".toList) ++ ' ' :: "buff/cache".toList))))
      = some (((f1 :: u1') ++ su :: u2) ++ ' ' :: ("used,".toList ++ ' ' :: (("47641".toList ++ '.' :: "3".toList) ++ ' ' :: "buff/cache".toList)), []) :=
    mhead_star_space rfl (digit_not_space hf1)
  have h10 : mhead (lits "free,".toList)
      ("free,".toList ++ ' ' :: (((f1 :: u1') ++ su :: u2) ++ ' ' :: ("used,".toList ++ ' ' :: (("47641".toList ++ '.' :: "3".toList) ++ ' ' :: "buff/cache".toList))))
      = some (' ' :: (((f1 :: u1') ++ su :: u2) ++ ' ' :: ("used,".toList ++ ' ' :: (("47641".toList ++ '.' :: "3".toList) ++ ' ' :: "buff/cache".toList))), []) :=
    mhead_lits _ _
  have h9 : mhead (plusRE isSpaceC)
      (' ' :: ("free,".toList ++ ' ' :: (((f1 :: u1') ++ su :: u2) ++ ' ' :: ("used,".toList ++ ' ' :: (("47641".toList ++ '.' :: "3".toList) ++ ' ' :: "buff/cache".toList)))))
      = some ("free,".toList ++ ' ' :: (((f1 :: u1') ++ su :: u2) ++ ' ' :: ("used,".toList ++ ' ' :: (("47641".toList ++ '.' :: "3".toList) ++ ' ' :: "buff/cache".toList))), []) :=
    mhead_plus_space rfl (by decide)
  have hG2 : mhead (.grp 2 numRE)
      (("15063".toList ++ '.' :: "5".toList) ++ ' ' :: ("free,".toList ++ ' ' :: (((f1 :: u1') ++ su :: u2) ++ ' ' :: ("used,".toList ++ ' ' :: (("47641".toList ++ '.' :: "3".toList) ++ ' ' :: "buff/cache".toList)))))
      = some (' ' :: ("free,".toList ++ ' ' :: (((f1 :: u1') ++ su :: u2) ++ ' ' :: ("used,".toList ++ ' ' :: (("47641".toList ++ '.' :: "3".toList) ++ ' ' :: "buff/cache".toList)))),
              [(2, "15063".toList ++ '.' :: "5".toList)]) := by
    apply mhead_grpnum (by decide) (by decide) (by decide) (by decide) (by decide)
    intro c hc
    simp at hc
    subst hc
    decide
  have h7 : mhead (.star isSpaceC true)
      (' ' :: (("15063".toList ++ '.' :: "5".toList) ++ ' ' :: ("free,".toList ++ ' ' :: (((f1 :: u1') ++ su :: u2) ++ ' ' :: ("used,".toList ++ ' ' :: (("47641".toList ++ '.' :: "3".toList) ++ ' ' :: "buff/cache".toList))))))
      = some (("15063".toList ++ '.' :: "5".toList) ++ ' ' :: ("free,".toList ++ ' ' :: (((f1 :: u1') ++ su :: u2) ++ ' ' :: ("used,".toList ++ ' ' :: (("47641".toList ++ '.' :: "3".toList) ++ ' ' :: "buff/cache".toList)))), []) :=
    mhead_star_space rfl (by decide)
  have h6 : mhead (lits "total,".toList)
      ("total,".toList ++ ' ' :: (("15063".toList ++ '.' :: "5".toList) ++ ' ' :: ("free,".toList ++ ' ' :: (((f1 :: u1') ++ su :: u2) ++ ' ' :: ("used,".toList ++ ' ' :: (("47641".toList ++ '.' :: "3".toList) ++ ' ' :: "buff/cache".toList))))))
      = some (' ' :: (("15063".toList ++ '.' :: "5".toList) ++ ' ' :: ("free,".toList ++ ' ' :: (((f1 :: u1') ++ su :: u2) ++ ' ' :: ("used,".toList ++ ' ' :: (("47641".toList ++ '.' :: "3".toList) ++ ' ' :: "buff/cache".toList))))), []) :=
    mhead_lits _ _
  have h5 : mhead (plusRE isSpaceC)
      (' ' :: ("total,".toList ++ ' ' :: (("15063".toList ++ '.' :: "5".toList) ++ ' ' :: ("free,".toList ++ ' ' :: (((f1 :: u1') ++ su :: u2) ++ ' ' :: ("used,".toList ++ ' ' :: (("47641".toList ++ '.' :: "3".toList) ++ ' ' :: "buff/cache".toList)))))))
      = some ("total,".toList ++ ' ' :: (("15063".toList ++ '.' :: "5".toList) ++ ' ' :: ("free,".toList ++ ' ' :: (((f1 :: u1') ++ su :: u2) ++ ' ' :: ("used,".toList ++ ' ' :: (("47641".toList ++ '.' :: "3".toList) ++ ' ' :: "buff/cache".toList))))), []) :=
    mhead_plus_space rfl (by decide)
  have hG1 : mhead (.grp 1 numRE)
      (((e1 :: t1') ++ st :: t2) ++ ' ' :: ("total,".toList ++ ' ' :: (("15063".toList ++ '.' :: "5".toList) ++ ' ' :: ("free,".toList ++ ' ' :: (((f1 :: u1') ++ su :: u2) ++ ' ' :: ("used,".toList ++ ' ' :: (("47641".toList ++ '.' :: "3".toList) ++ ' ' :: "buff/cache".toList)))))))
      = some (' ' :: ("total,".toList ++ ' ' :: (("15063".toList ++ '.' :: "5".toList) ++ ' ' :: ("free,".toList ++ ' ' :: (((f1 :: u1') ++ su :: u2) ++ ' ' :: ("used,".toList ++ ' ' :: (("47641".toList ++ '.' :: "3".toList) ++ ' ' :: "buff/cache".toList)))))),
              [(1, (e1 :: t1') ++ st :: t2)]) := by
    apply mhead_grpnum (by simp) hat1 hst ht2 hat2
    intro c hc
    simp at hc
    subst hc
    decide
  have h3 : mhead (.star isSpaceC true)
      (' ' :: (((e1 :: t1') ++ st :: t2) ++ ' ' :: ("total,".toList ++ ' ' :: (("15063".toList ++ '.' :: "5".toList) ++ ' ' :: ("free,".toList ++ ' ' :: (((f1 :: u1') ++ su :: u2) ++ ' ' :: ("used,".toList ++ ' ' :: (("47641".toList ++ '.' :: "3".toList) ++ ' ' :: "buff/cache".toList))))))))
      = some (((e1 :: t1') ++ st :: t2) ++ ' ' :: ("total,".toList ++ ' ' :: (("15063".toList ++ '.' :: "5".toList) ++ ' ' :: ("free,".toList ++ ' ' :: (((f1 :: u1') ++ su :: u2) ++ ' ' :: ("used,".toList ++ ' ' :: (("47641".toList ++ '.' :: "3".toList) ++ ' ' :: "buff/cache".toList)))))), []) :=
    mhead_star_space rfl (digit_not_space he1)
  have h2 : mhead (lits ":".toList)
      (':' :: ' ' :: (((e1 :: t1') ++ st :: t2) ++ ' ' :: ("total,".toList ++ ' ' :: (("15063".toList ++ '.' :: "5".toList) ++ ' ' :: ("free,".toList ++ ' ' :: (((f1 :: u1') ++ su :: u2) ++ ' ' :: ("used,".toList ++ ' ' :: (("47641".toList ++ '.' :: "3".toList) ++ ' ' :: "buff/cache".toList))))))))
      = some (' ' :: (((e1 :: t1') ++ st :: t2) ++ ' ' :: ("total,".toList ++ ' ' :: (("15063".toList ++ '.' :: "5".toList) ++ ' ' :: ("free,".toList ++ ' ' :: (((f1 :: u1') ++ su :: u2) ++ ' ' :: ("used,".toList ++ ' ' :: (("47641".toList ++ '.' :: "3".toList) ++ ' ' :: "buff/cache".toList))))))), []) := by
    have := mhead_lits ":".toList
      (' ' :: (((e1 :: t1') ++ st :: t2) ++ ' ' :: ("total,".toList ++ ' ' :: (("15063".toList ++ '.' :: "5".toList) ++ ' ' :: ("free,".toList ++ ' ' :: (((f1 :: u1') ++ su :: u2) ++ ' ' :: ("used,".toList ++ ' ' :: (("47641".toList ++ '.' :: "3".toList) ++ ' ' :: "buff/cache".toList))))))))
    simpa using this
  have h1 : mhead (.star isSpaceC true)
      (' ' :: ':' :: ' ' :: (((e1 :: t1') ++ st :: t2) ++ ' ' :: ("total,".toList ++ ' ' :: (("15063".toList ++ '.' :: "5".toList) ++ ' ' :: ("free,".toList ++ ' ' :: (((f1 :: u1') ++ su :: u2) ++ ' ' :: ("used,".toList ++ ' ' :: (("47641".toList ++ '.' :: "3".toList) ++ ' ' :: "buff/cache".toList))))))))
      = some (':' :: ' ' :: (((e1 :: t1') ++ st :: t2) ++ ' ' :: ("total,".toList ++ ' ' :: (("15063".toList ++ '.' :: "5".toList) ++ ' ' :: ("free,".toList ++ ' ' :: (((f1 :: u1') ++ su :: u2) ++ ' ' :: ("used,".toList ++ ' ' :: (("47641".toList ++ '.' :: "3".toList) ++ ' ' :: "buff/cache".toList))))))), []) :=
    mhead_star_space rfl (by decide)
  have h0 : mhead (lits "MiB Mem".toList)
      ("MiB Mem".toList ++ ' ' :: ':' :: ' ' :: (((e1 :: t1') ++ st :: t2) ++ ' ' :: ("total,".toList ++ ' ' :: (("15063".toList ++ '.' :: "5".toList) ++ ' ' :: ("free,".toList ++ ' ' :: (((f1 :: u1') ++ su :: u2) ++ ' ' :: ("used,".toList ++ ' ' :: (("47641".toList ++ '.' :: "3".toList) ++ ' ' :: "buff/cache".toList))))))))
      = some (' ' :: ':' :: ' ' :: (((e1 :: t1') ++ st :: t2) ++ ' ' :: ("total,".toList ++ ' ' :: (("15063".toList ++ '.' :: "5".toList) ++ ' ' :: ("free,".toList ++ ' ' :: (((f1 :: u1') ++ su :: u2) ++ ' ' :: ("used,".toList ++ ' ' :: (("47641".toList ++ '.' :: "3".toList) ++ ' ' :: "buff/cache".toList))))))), []) :=
    mhead_lits _ _
  have c17 := mhead_cat h17 h18
  have c16 := mhead_cat hG4 c17
  have c15 := mhead_cat h15 c16
  have c14 := mhead_cat h14 c15
  have c13 := mhead_cat h13 c14
  have c12 := mhead_cat hG3 c13
  have c11 := mhead_cat h11 c12
  have c10 := mhead_cat h10 c11
  have c9 := mhead_cat h9 c10
  have c8 := mhead_cat hG2 c9
  have c7 := mhead_cat h7 c8
  have c6 := mhead_cat h6 c7
  have c5 := mhead_cat h5 c6
  have c4 := mhead_cat hG1 c5
  have c3 := mhead_cat h3 c4
  have c2 := mhead_cat h2 c3
  have c1 := mhead_cat h1 c2
  have c0 := mhead_cat h0 c1
  simpa [memRE, mkMemText] using c0

theorem reSearch_head {r : RE} {c : Char} {xs : List Char} {res : List Char × Caps}
    (h : (matchRE r (c :: xs)).head? = some res) : reSearch r (c :: xs) = some res.2 := by
  simp only [reSearch, h]

theorem mem_search {t1 t2 u1 u2 : List Char} {st su : Char}
    (ht1 : t1 ≠ []) (hat1 : ∀ c ∈ t1, isDigitC c = true)
    (hst : sepC st = true)
    (ht2 : t2 ≠ []) (hat2 : ∀ c ∈ t2, isDigitC c = true)
    (hu1 : u1 ≠ []) (hau1 : ∀ c ∈ u1, isDigitC c = true)
    (hsu : sepC su = true)
    (hu2 : u2 ≠ []) (hau2 : ∀ c ∈ u2, isDigitC c = true) :
    reSearch memRE (mkMemText t1 t2 u1 u2 st su).toList
      = some [(1, t1 ++ st :: t2), (2, "15063".toList ++ '.' :: "5".toList),
              (3, u1 ++ su :: u2), (4, "47641".toList ++ '.' :: "3".toList)] := by
  have hm := mem_match ht1 hat1 hst ht2 hat2 hu1 hau1 hsu hu2 hau2
  unfold mhead at hm
  rw [show (mkMemText t1 t2 u1 u2 st su).toList
      = 'M' :: (mkMemText t1 t2 u1 u2 st su).toList.tail from rfl] at hm ⊢
  exact reSearch_head hm

theorem matchRE_mem_head {c : Char} (xs : List Char) (hc : c ≠ 'M') :
    matchRE memRE (c :: xs) = [] := by
  have hlit : matchRE (.lit 'M') (c :: xs) = [] := by
    simp [matchRE, hc]
  exact matchRE_cat_nil (matchRE_cat_nil hlit)

theorem reSearch_mem_none : ∀ (l : List Char), (∀ c ∈ l, c ≠ 'M') →
    reSearch memRE l = none := by
  intro l
  induction l with
  | nil => intro _; rfl
  | cons c xs ih =>
    intro h
    have hc : c ≠ 'M' := h c (by simp)
    have hm := matchRE_mem_head xs hc
    simp only [reSearch, hm, List.head?]
    exact ih (fun e he => h e (by simp [he]))

/-- C7: parse_memory_usage_from_top on a memory-summary line with total
field `t1 st t2` and used field `u1 su u2` (either separator) returns the
truncated total/used MiB values and usage_percent = round(used/total*100, 1),
0 when total is 0; none when the line is missing; and on the claim's example
(total 64348.0, used 12345.0) it returns 19.2 / 64348 / 12345. -/
theorem parse_memory_spec :
    (∀ (t1 t2 u1 u2 : List Char) (st su : Char),
      t1 ≠ [] → t2 ≠ [] → u1 ≠ [] → u2 ≠ [] →
      (∀ c ∈ t1, isDigitC c = true) → (∀ c ∈ t2, isDigitC c = true) →
      (∀ c ∈ u1, isDigitC c = true) → (∀ c ∈ u2, isDigitC c = true) →
      sepC st = true → sepC su = true →
      parse_memory_usage_from_top (mkMemText t1 t2 u1 u2 st su)
        = some { ram_total_mb := pyTrunc (decVal t1 t2),
                 ram_used_mb := pyTrunc (decVal u1 u2),
                 ram_usage_percent :=
                   if decVal t1 t2 > 0 then round1 (decVal u1 u2 / decVal t1 t2 * 100) else 0 })
    ∧ (∀ s : String, (∀ c ∈ s.toList, c ≠ 'M') → parse_memory_usage_from_top s = none)
    ∧ parse_memory_usage_from_top
        "MiB Mem :  64348.0 total,  45678.0 free,  12345.0 used,   6325.0 buff/cache"
        = some { ram_total_mb := 64348, ram_used_mb := 12345,
                 ram_usage_percent := (96 : ℚ) / 5 } := by
  refine ⟨?_, ?_, ?_⟩
  · intro t1 t2 u1 u2 st su ht1 ht2 hu1 hu2 hat1 hat2 hau1 hau2 hst hsu
    have hsr := mem_search ht1 hat1 hst ht2 hat2 hu1 hau1 hsu hu2 hau2
    have hmap1 : (t1 ++ st :: t2).map commaToDot = t1 ++ '.' :: t2 := by
      rw [List.map_append, List.map_cons, map_commaToDot_digits hat1,
          map_commaToDot_digits hat2, sep_commaToDot hst]
    have hmap3 : (u1 ++ su :: u2).map commaToDot = u1 ++ '.' :: u2 := by
      rw [List.map_append, List.map_cons, map_commaToDot_digits hau1,
          map_commaToDot_digits hau2, sep_commaToDot hsu]
    unfold parse_memory_usage_from_top
    rw [hsr]
    simp [List.lookup, hmap1, hmap3, pyFloat_decimal ht1 hat1 hat2,
          pyFloat_decimal hu1 hau1 hau2]
  · intro s h
    unfold parse_memory_usage_from_top
    rw [reSearch_mem_none s.toList h]
  · with_unfolding_all rfl

theorem parse_memory_spec_witness :
    ("64348".toList ≠ ([] : List Char) ∧ "0".toList ≠ ([] : List Char) ∧
      "12345".toList ≠ ([] : List Char) ∧
      (∀ c ∈ "64348".toList, isDigitC c = true) ∧
      (∀ c ∈ "12345".toList, isDigitC c = true) ∧ sepC '.' = true) ∧
    parse_memory_usage_from_top
        (mkMemText "64348".toList "0".toList "12345".toList "0".toList '.' '.')
      = some { ram_total_mb := pyTrunc (decVal "64348".toList "0".toList),
               ram_used_mb := pyTrunc (decVal "12345".toList "0".toList),
               ram_usage_percent :=
                 if decVal "64348".toList "0".toList > 0 then
                   round1 (decVal "12345".toList "0".toList /
                           decVal "64348".toList "0".toList * 100)
                 else 0 } ∧
    parse_memory_usage_from_top "top - nothing here" = none :=
  ⟨by decide,
   parse_memory_spec.1 "64348".toList "0".toList "12345".toList "0".toList '.' '.'
     (by decide) (by decide) (by decide) (by decide) (by decide) (by decide)
     (by decide) (by decide) (by decide) (by decide),
   parse_memory_spec.2.1 "top - nothing here" (by decide)⟩

/-! ## C5: line-by-line tolerance of the tabular parser -/

theorem parseCSVLoop_eq_filterMap (keys : List String) :
    ∀ ls : List String, parseCSVLoop keys ls = ls.filterMap (lineRow keys) := by
  intro ls
  induction ls with
  | nil => rfl
  | cons l t ih =>
    cases h : lineRow keys l with
    | none => simp [parseCSVLoop, h, ih, List.filterMap_cons]
    | some r => simp [parseCSVLoop, h, ih, List.filterMap_cons]

/-- C5: parse_nvidia_smi_csv is exactly a per-line filterMap — it returns the
records of the lines whose arity matches and whose coercions all succeed
(`lineRow`), a line of the wrong arity is dropped without affecting the other
lines, and on the 2-row example with an extra field in row 2 it returns
exactly row 1; as a total Lean function it never raises. -/
theorem parse_tabular_spec :
    (∀ (csv : String) (keys : List String) (warn : Bool),
      parse_nvidia_smi_csv csv keys warn
        = (pySplitlines (pyStrip csv)).filterMap (lineRow keys))
    ∧ (∀ (keys : List String) (pre post : List String) (bad : String),
        ((pySplit ',' bad).map pyStrip).length ≠ keys.length →
        parseCSVLoop keys (pre ++ bad :: post) = parseCSVLoop keys (pre ++ post))
    ∧ parse_nvidia_smi_csv "1234, python, 1024\n5678, /usr/bin/torchrun, 8192, extra"
        procKeys true
        = [[("pid", FieldVal.i 1234), ("process_name", FieldVal.s "python"),
            ("used_gpu_memory", FieldVal.i 1024)]] := by
  refine ⟨?_, ?_, ?_⟩
  · intro csv keys warn
    exact parseCSVLoop_eq_filterMap keys _
  · intro keys pre post bad hbad
    have hnone : lineRow keys bad = none := by
      unfold lineRow
      exact if_neg hbad
    rw [parseCSVLoop_eq_filterMap, parseCSVLoop_eq_filterMap,
        List.filterMap_append, List.filterMap_append, List.filterMap_cons, hnone]
  · decide

theorem parse_tabular_spec_witness :
    ((pySplit ',' "5678, /usr/bin/torchrun, 8192, extra").map pyStrip).length ≠
        procKeys.length ∧
    parseCSVLoop procKeys
        (["1234, python, 1024"] ++ "5678, /usr/bin/torchrun, 8192, extra" :: [])
      = parseCSVLoop procKeys (["1234, python, 1024"] ++ []) :=
  ⟨by decide,
   parse_tabular_spec.2.1 procKeys ["1234, python, 1024"] []
     "5678, /usr/bin/torchrun, 8192, extra" (by decide)⟩

/-! ## C4: parse_gpu_info is absent iff the base listing yields nothing -/

theorem buildRow_lookup : ∀ {ks vs : List String} {row : Row},
    buildRow ks vs = some row → ∀ k ∈ ks,
    ∃ v fv, coerceField k v = some fv ∧ row.lookup k = some fv := by
  intro ks
  induction ks with
  | nil => intro vs row _ k hk; simp at hk
  | cons k0 ks' ih =>
    intro vs row h k hk
    cases vs with
    | nil => simp [buildRow] at h
    | cons v0 vs' =>
      unfold buildRow at h
      cases hc : coerceField k0 v0 with
      | none => rw [hc] at h; simp at h
      | some fv0 =>
        rw [hc] at h
        cases hb : buildRow ks' vs' with
        | none => rw [hb] at h; simp at h
        | some row' =>
          rw [hb] at h
          simp at h
          subst h
          by_cases hkk : k = k0
          · subst hkk
            exact ⟨v0, fv0, hc, by simp [List.lookup]⟩
          · obtain ⟨v, fv, hcf, hl⟩ := ih hb k (by
              rcases List.mem_cons.mp hk with h1 | h1
              · exact absurd h1 hkk
              · exact h1)
            refine ⟨v, fv, hcf, ?_⟩
            have hne : (k == k0) = false := by simp [hkk]
            simp [List.lookup, hne, hl]

theorem coerce_int_shape {k : String} {v : String} {fv : FieldVal}
    (h : coerceField k v = some fv)
    (heq : coerceField k v = (pyInt v.toList).map FieldVal.i) :
    ∃ n, fv = FieldVal.i n := by
  rw [heq] at h
  cases hp : pyInt v.toList with
  | none => rw [hp] at h; simp at h
  | some n => rw [hp] at h; simp at h; exact ⟨n, h.symm⟩

theorem coerce_float_shape {k : String} {v : String} {fv : FieldVal}
    (h : coerceField k v = some fv)
    (heq : coerceField k v = (pyFloat v.toList).map FieldVal.f) :
    ∃ q, fv = FieldVal.f q := by
  rw [heq] at h
  cases hp : pyFloat v.toList with
  | none => rw [hp] at h; simp at h
  | some q => rw [hp] at h; simp at h; exact ⟨q, h.symm⟩

theorem coerce_str_shape {k : String} {v : String} {fv : FieldVal}
    (h : coerceField k v = some fv)
    (heq : coerceField k v = some (FieldVal.s v)) :
    ∃ s, fv = FieldVal.s s := by
  rw [heq] at h
  simp at h
  exact ⟨v, h.symm⟩

theorem mkGpuInfo_of_buildRow {vals : List String} {row : Row} (procs : List ProcessInfo)
    (h : buildRow gpuKeys vals = some row) : ∃ g, mkGpuInfo row procs = some g := by
  obtain ⟨v1, fv1, hc1, hl1⟩ := buildRow_lookup h "index" (by simp [gpuKeys])
  obtain ⟨v2, fv2, hc2, hl2⟩ := buildRow_lookup h "name" (by simp [gpuKeys])
  obtain ⟨v3, fv3, hc3, hl3⟩ := buildRow_lookup h "utilization.gpu" (by simp [gpuKeys])
  obtain ⟨v4, fv4, hc4, hl4⟩ := buildRow_lookup h "memory.used" (by simp [gpuKeys])
  obtain ⟨v5, fv5, hc5, hl5⟩ := buildRow_lookup h "memory.total" (by simp [gpuKeys])
  obtain ⟨v6, fv6, hc6, hl6⟩ := buildRow_lookup h "temperature.gpu" (by simp [gpuKeys])
  obtain ⟨v7, fv7, hc7, hl7⟩ := buildRow_lookup h "power.limit" (by simp [gpuKeys])
  obtain ⟨v8, fv8, hc8, hl8⟩ := buildRow_lookup h "power.draw" (by simp [gpuKeys])
  obtain ⟨n1, rfl⟩ := coerce_int_shape hc1 rfl
  obtain ⟨s2, rfl⟩ := coerce_str_shape hc2 rfl
  obtain ⟨n3, rfl⟩ := coerce_int_shape hc3 rfl
  obtain ⟨n4, rfl⟩ := coerce_int_shape hc4 rfl
  obtain ⟨n5, rfl⟩ := coerce_int_shape hc5 rfl
  obtain ⟨n6, rfl⟩ := coerce_int_shape hc6 rfl
  obtain ⟨q7, rfl⟩ := coerce_float_shape hc7 rfl
  obtain ⟨q8, rfl⟩ := coerce_float_shape hc8 rfl
  refine ⟨⟨n1, s2, n3, n4, n5, n6, q7, q8, procs⟩, ?_⟩
  unfold mkGpuInfo
  rw [hl1, hl2, hl3, hl4, hl5, hl6, hl7, hl8]

theorem mem_parseCSVLoop {keys : List String} : ∀ {ls : List String} {row : Row},
    row ∈ parseCSVLoop keys ls → ∃ l ∈ ls, lineRow keys l = some row := by
  intro ls
  induction ls with
  | nil => intro row h; simp [parseCSVLoop] at h
  | cons l t ih =>
    intro row h
    unfold parseCSVLoop at h
    cases hl : lineRow keys l with
    | none =>
      rw [hl] at h
      obtain ⟨l', hl', hr⟩ := ih h
      exact ⟨l', by simp [hl'], hr⟩
    | some r =>
      rw [hl] at h
      rcases List.mem_cons.mp h with h1 | h1
      · subst h1; exact ⟨l, by simp, hl⟩
      · obtain ⟨l', hl', hr⟩ := ih h1
        exact ⟨l', by simp [hl'], hr⟩

theorem lineRow_buildRow {keys : List String} {l : String} {row : Row}
    (h : lineRow keys l = some row) :
    ∃ vals, buildRow keys vals = some row := by
  simp only [lineRow] at h
  split at h
  · exact ⟨_, h⟩
  · simp at h

/-- C4: parse_gpu_info returns absent exactly when the base listing is
absent (None or the falsy empty string) or parses to zero rows; with at
least one parsed row the result is always present, because a row that
survived the typed coercion table always constructs a GpuInfo. -/
theorem parse_gpu_info_spec :
    ∀ (gq : Option String) (pp : Option (List (Int × Option String))),
      parse_gpu_info gq pp = none ↔
        (gq = none ∨ parse_nvidia_smi_csv (gq.getD "") gpuKeys true = []) := by
  intro gq pp
  cases gq with
  | none => simp [parse_gpu_info]
  | some s =>
    by_cases hs : s = ""
    · subst hs
      simp [parse_gpu_info]
      decide
    · unfold parse_gpu_info
      simp only [hs, if_false, Option.getD]
      by_cases hr : parse_nvidia_smi_csv s gpuKeys true = []
      · simp [hr]
      · have hinfos : (parse_nvidia_smi_csv s gpuKeys true).filterMap
            (fun row => mkGpuInfo row (procsForGpu row pp)) ≠ [] := by
          intro hnil
          obtain ⟨row, ht, heq⟩ := List.exists_cons_of_ne_nil hr
          have hmem : row ∈ parse_nvidia_smi_csv s gpuKeys true := by
            rw [heq]
            simp
          obtain ⟨l, _, hlr⟩ := mem_parseCSVLoop hmem
          obtain ⟨vals, hb⟩ := lineRow_buildRow hlr
          obtain ⟨g, hg⟩ := mkGpuInfo_of_buildRow (procsForGpu row pp) hb
          have : g ∈ (parse_nvidia_smi_csv s gpuKeys true).filterMap
              (fun row => mkGpuInfo row (procsForGpu row pp)) :=
            List.mem_filterMap.mpr ⟨row, hmem, hg⟩
          rw [hnil] at this
          simp at this
        simp [hr, hinfos]

/-! ## C1: bastion gating -/

theorem isPrefixOf_append_self : ∀ (l r : List Char), l.isPrefixOf (l ++ r) = true := by
  intro l
  induction l with
  | nil => intro r; simp
  | cons c cs ih => intro r; simp [List.isPrefixOf, ih]

theorem hasSub_self_append : ∀ (needle rest : List Char),
    hasSub needle (needle ++ rest) = true := by
  intro needle rest
  cases needle with
  | nil =>
    cases rest with
    | nil => rfl
    | cons c r => simp [hasSub]
  | cons n ns => simp [hasSub, isPrefixOf_append_self]

/-- The skipped member status built in the gating branch of
periodic_status_fetch / get_status. -/
def skippedStatus (jh : String) (hc : MonitoredHostConfig) : HostStatus :=
  { hostname := hc.«alias», status := "skipped", error_message := some (jh ++ " down") }

/-- C1: with a configured bastion alias `jh`, if its check reports anything
other than "up" then every member is marked "skipped" (in configuration
order) with an error message referencing the bastion, and no member check is
invoked (the invoked-members log is empty); if the bastion reports "up", or
no bastion is configured, every configured member is checked, in order. -/
theorem bastion_gating_spec :
    ∀ (jh : String) (members : List MonitoredHostConfig)
      (checkHost : MonitoredHostConfig → HostStatus),
      jh ≠ "" →
      (((checkHost { «alias» := jh, check_gpu := false }).status ≠ "up" →
        (collect_fleet_status (some jh) members checkHost).2.1
          = members.map (skippedStatus jh)
        ∧ (collect_fleet_status (some jh) members checkHost).2.2 = []
        ∧ ∀ st ∈ (collect_fleet_status (some jh) members checkHost).2.1,
            st.status = "skipped" ∧
            ∃ m, st.error_message = some m ∧ hasSub jh.toList m.toList = true)
      ∧ ((checkHost { «alias» := jh, check_gpu := false }).status = "up" →
        (collect_fleet_status (some jh) members checkHost).2.1 = members.map checkHost
        ∧ (collect_fleet_status (some jh) members checkHost).2.2
            = members.map (·.«alias»))
      ∧ ((collect_fleet_status none members checkHost).2.1 = members.map checkHost
        ∧ (collect_fleet_status none members checkHost).2.2
            = members.map (·.«alias»))) := by
  intro jh members checkHost hjh
  refine ⟨?_, ?_, ?_⟩
  · intro hst
    have hcol : collect_fleet_status (some jh) members checkHost
        = (some (checkHost { «alias» := jh, check_gpu := false }),
           members.map (skippedStatus jh), []) := by
      simp only [collect_fleet_status]
      rw [if_neg hjh, if_neg hst]
      rfl
    refine ⟨by rw [hcol], by rw [hcol], ?_⟩
    rw [hcol]
    intro st hmem
    obtain ⟨hc, _, rfl⟩ := List.mem_map.mp hmem
    refine ⟨rfl, jh ++ " down", rfl, ?_⟩
    show hasSub jh.toList (jh.toList ++ " down".toList) = true
    exact hasSub_self_append _ _
  · intro hst
    have hcol : collect_fleet_status (some jh) members checkHost
        = (some (checkHost { «alias» := jh, check_gpu := false }),
           members.map checkHost, members.map (·.«alias»)) := by
      simp only [collect_fleet_status]
      rw [if_neg hjh, if_pos hst]
    exact ⟨by rw [hcol], by rw [hcol]⟩
  · exact ⟨rfl, rfl⟩

def twoMembers : List MonitoredHostConfig := [⟨"m1", true⟩, ⟨"m2", true⟩]

def constDown : MonitoredHostConfig → HostStatus :=
  fun hc => { hostname := hc.«alias», status := "down" }

theorem bastion_gating_spec_witness :
    ("bastion" : String) ≠ "" ∧
    (constDown ⟨"bastion", false⟩).status ≠ "up" ∧
    (collect_fleet_status (some "bastion") twoMembers constDown).2.1
      = twoMembers.map (skippedStatus "bastion") ∧
    (collect_fleet_status (some "bastion") twoMembers constDown).2.2 = [] := by
  have h := (bastion_gating_spec "bastion" twoMembers constDown (by decide)).1 (by decide)
  exact ⟨by decide, by decide, h.1, h.2.1⟩

/-! ## C9: idempotent unsubscribe -/

/-- C9: remove_client is idempotent — removing the same queue twice leaves
the cache exactly as removing it once, the second call being a no-op (and,
being a total function, it cannot raise). -/
theorem remove_client_idempotent :
    ∀ (c : StatusCache) (q : Nat),
      remove_client (remove_client c q) q = remove_client c q := by
  intro c q
  by_cases hq : q ∈ c.connected_clients
  · simp [remove_client, hq]
  · simp [remove_client, hq]

/-! ## C6: the 60-second fallback is tied to the wait logic, not Collecting -/

/-- C6 counterexample: a cycle whose Collecting phase raises (first flag) and
whose wait logic is healthy sleeps for the NORMAL interval — the fixed sleep
of 300 with clients, the interruptible 1800 without — and not for a distinct
60-second retry delay, contradicting the claim that a Collecting failure is
followed by a short fixed retry delay distinct from the normal intervals. -/
theorem scheduler_retry_counterexample :
    scheduler_iteration true true 300 1800 false = WaitSpec.fixedSleep 300
    ∧ scheduler_iteration true false 300 1800 false = WaitSpec.interruptible 1800
    ∧ WaitSpec.fixedSleep 300 ≠ WaitSpec.fallbackSleep 60
    ∧ WaitSpec.interruptible 1800 ≠ WaitSpec.fallbackSleep 60 := by
  refine ⟨rfl, rfl, by decide, by decide⟩

/-- C6 amended: a Collecting failure is only logged — the loop never crashes
and proceeds to the normal Waiting phase with the standard client/no-client
interval (a collecting failure changes nothing about the wait); the fixed
60-second fallback sleep is taken exactly when the wait logic itself raises
unexpectedly. -/
theorem scheduler_retry_amended :
    (∀ (hc : Bool) (k n : Nat) (w : Bool),
      scheduler_iteration true hc k n w = scheduler_iteration false hc k n w)
    ∧ (∀ (cf hc : Bool) (k n : Nat),
      scheduler_iteration cf hc k n false
        = if hc then WaitSpec.fixedSleep k else WaitSpec.interruptible n)
    ∧ (∀ (cf hc : Bool) (k n : Nat),
      scheduler_iteration cf hc k n true = WaitSpec.fallbackSleep 60) := by
  refine ⟨fun hc k n w => rfl, fun cf hc k n => rfl, fun cf hc k n => rfl⟩

/-! ## C10: run_ssh_command_async failure modes -/

def okImport : String → Except String Unit := fun _ => Except.ok ()

def cfgDirect : String → Option HostConnectionDetails :=
  fun a => if a = "target" then some ⟨"10.0.0.1", "u", none⟩ else none

def cfgJumpMissing : String → Option HostConnectionDetails :=
  fun a => if a = "target" then some ⟨"10.0.0.1", "u", some "jump"⟩ else none

/-- C10: run_ssh_command_async is total (never raises) and returns, for each
failure mode, a distinct negative exit code with absent stdout and a
descriptive stderr: -3 missing/bad key, -2 unknown target or jump alias,
-1 SSH error, -4 timeout, -5 any other exception; a completed command's
tuple is passed through unchanged. -/
theorem ssh_failure_modes :
    (∀ (imp : String → Except String Unit) (cfg : String → Option HostConnectionDetails)
       (cr : Except SshFailure (Int × Option String × Option String)) (a c : String),
      run_ssh_command_async ⟨none, imp, cfg, cr⟩ a c
        = (-3, none, some "SSH_PRIVATE_KEY environment variable not set."))
    ∧ (∀ (e : String) (cfg : String → Option HostConnectionDetails)
         (cr : Except SshFailure (Int × Option String × Option String)) (a c : String),
      run_ssh_command_async ⟨some "KEY", fun _ => Except.error e, cfg, cr⟩ a c
        = (-3, none, some ("Failed to import private key: " ++ e)))
    ∧ (∀ (cr : Except SshFailure (Int × Option String × Option String)) (a c : String),
      run_ssh_command_async ⟨some "KEY", okImport, fun _ => none, cr⟩ a c
        = (-2, none, some ("Host alias \x27" ++ a ++ "\x27 not found in configuration.")))
    ∧ (∀ (cr : Except SshFailure (Int × Option String × Option String)) (c : String),
      run_ssh_command_async ⟨some "KEY", okImport, cfgJumpMissing, cr⟩ "target" c
        = (-2, none, some "Jump host alias \x27jump\x27 not found in configuration."))
    ∧ (∀ (e c : String),
      run_ssh_command_async ⟨some "KEY", okImport, cfgDirect,
          Except.error (SshFailure.sshErr e)⟩ "target" c
        = (-1, none, some ("SSH Error: " ++ e)))
    ∧ (∀ (c : String),
      run_ssh_command_async ⟨some "KEY", okImport, cfgDirect,
          Except.error SshFailure.timeout⟩ "target" c
        = (-4, none, some "SSH command or connection timed out"))
    ∧ (∀ (e c : String),
      run_ssh_command_async ⟨some "KEY", okImport, cfgDirect,
          Except.error (SshFailure.other e)⟩ "target" c
        = (-5, none, some ("Unexpected Error: " ++ e)))
    ∧ (∀ (rc : Int) (so se : Option String) (c : String),
      run_ssh_command_async ⟨some "KEY", okImport, cfgDirect,
          Except.ok (rc, so, se)⟩ "target" c
        = (rc, so, se)) := by
  refine ⟨fun imp cfg cr a c => rfl, fun e cfg cr a c => ?_, fun cr a c => ?_,
          fun cr c => rfl, fun e c => rfl, fun c => rfl, fun e c => rfl,
          fun rc so se c => rfl⟩
  · simp [run_ssh_command_async]
  · simp [run_ssh_command_async, okImport]

/-! ## C8: a late joiner gets the cached snapshot first -/

theorem broadcast_foldl {c : StatusCache} {q : Nat} (hq : q ∈ c.connected_clients) :
    ∀ (msgs : List String) (acc : Queues),
      (msgs.foldl (fun acc2 m => broadcast c acc2 m) acc) q = acc q ++ msgs := by
  intro msgs
  induction msgs with
  | nil => intro acc; simp
  | cons m t ih =>
    intro acc
    simp only [List.foldl_cons]
    rw [ih]
    simp [broadcast, hq]

/-- C8: a subscriber whose queue registers while `latest` is set receives
exactly the cached snapshot's wire message as its first queued message, and
any number of subsequent broadcasts are queued strictly after it; if
`latest` is unset at registration, nothing is enqueued. -/
theorem subscribe_late_joiner :
    (∀ (c : StatusCache) (qs : Queues) (q : Nat) (msgs : List String) (d : String),
      qs q = [] → c.latest_status_data = some d →
      (msgs.foldl (fun acc m => broadcast (subscribe c qs q).1 acc m)
          (subscribe c qs q).2) q
        = ("data: " ++ jsonWrap d c.latest_status_timestamp ++ "\n\n") :: msgs)
    ∧ (∀ (c : StatusCache) (qs : Queues) (q : Nat),
      c.latest_status_data = none → (subscribe c qs q).2 = qs) := by
  constructor
  · intro c qs q msgs d hfresh hlatest
    have hmsg : get_latest_status_message (add_client c q)
        = some ("data: " ++ jsonWrap d c.latest_status_timestamp ++ "\n\n") := by
      simp [get_latest_status_message, add_client, hlatest]
    have hsub1 : (subscribe c qs q).1 = add_client c q := by
      simp [subscribe, hmsg]
    have hsub2 : (subscribe c qs q).2
        = fun r => if r = q then
            qs r ++ ["data: " ++ jsonWrap d c.latest_status_timestamp ++ "\n\n"]
          else qs r := by
      simp [subscribe, hmsg]
    have hqmem : q ∈ (subscribe c qs q).1.connected_clients := by
      rw [hsub1]
      simp [add_client]
    rw [broadcast_foldl hqmem msgs (subscribe c qs q).2, hsub2]
    simp [hfresh]
  · intro c qs q hlatest
    simp [subscribe, get_latest_status_message, add_client, hlatest]

theorem subscribe_late_joiner_witness :
    ((fun _ : Nat => ([] : List String)) 5 = [] ∧
      (StatusCache.mk (some "S") (some "T") ∅ false).latest_status_data = some "S") ∧
    (["m1", "m2"].foldl
        (fun acc m => broadcast
          (subscribe (StatusCache.mk (some "S") (some "T") ∅ false) (fun _ => []) 5).1 acc m)
        (subscribe (StatusCache.mk (some "S") (some "T") ∅ false) (fun _ => []) 5).2) 5
      = ("data: " ++ jsonWrap "S" (some "T") ++ "\n\n") :: ["m1", "m2"] ∧
    (subscribe (StatusCache.mk none none ∅ false) (fun _ => []) 5).2 = fun _ => [] :=
  ⟨⟨rfl, rfl⟩,
   subscribe_late_joiner.1 (StatusCache.mk (some "S") (some "T") ∅ false)
     (fun _ => []) 5 ["m1", "m2"] "S" rfl rfl,
   subscribe_late_joiner.2 (StatusCache.mk none none ∅ false) (fun _ => []) 5 rfl⟩

/-! ## C3: sub-check diagnostics in error_message -/

def execProbeConnErr : Exec := fun _ cmd =>
  if cmd = CHECK_REACHABILITY_CMD then (0, some "", some "")
  else if cmd = TOP_CMD then (0, some "", some "")
  else if cmd = CHECK_NVIDIA_SMI_CMD then (-1, none, some "Connection refused")
  else (0, some "", some "")

def execToolAbsent : Exec := fun _ cmd =>
  if cmd = CHECK_REACHABILITY_CMD then (0, some "", some "")
  else if cmd = TOP_CMD then (0, some "", some "")
  else if cmd = CHECK_NVIDIA_SMI_CMD then (1, some "", some "")
  else (0, some "", some "")

def execGpuQueryFail : Exec := fun _ cmd =>
  if cmd = CHECK_REACHABILITY_CMD then (0, some "", some "")
  else if cmd = TOP_CMD then (0, some "", some "")
  else if cmd = CHECK_NVIDIA_SMI_CMD then (0, some "/usr/bin/nvidia-smi", some "")
  else if cmd = NVIDIA_SMI_GPU_QUERY_CMD then (2, none, some "boom")
  else (0, some "", some "")

def execBothFail : Exec := fun _ cmd =>
  if cmd = CHECK_REACHABILITY_CMD then (0, some "", some "")
  else if cmd = TOP_CMD then (1, none, some "terr")
  else if cmd = CHECK_NVIDIA_SMI_CMD then (0, some "/usr/bin/nvidia-smi", some "")
  else if cmd = NVIDIA_SMI_GPU_QUERY_CMD then (2, none, some "boom")
  else (0, some "", some "")

/-- C3 counterexample: a genuine accelerator sub-check failure — the
tool-presence probe dying with an SSH connection error (rc = -1, not the
expected-absence rc = 1) — does produce a diagnostic from get_gpu_info, yet
get_full_host_status leaves error_message at none, because the diagnostic
text contains "nvidia-smi not found" and is filtered out; so "genuine
accelerator sub-check failures do appear" is false as stated. -/
theorem gpu_error_filter_counterexample :
    (get_gpu_info execProbeConnErr "h").2
      = some "nvidia-smi not found or check failed on h (rc=-1). Stderr: Connection refused"
    ∧ (get_full_host_status execProbeConnErr ⟨"h", true⟩).status = "up"
    ∧ (get_full_host_status execProbeConnErr ⟨"h", true⟩).error_message = none := by
  refine ⟨by decide, by decide, by decide⟩

/-- C3 amended: for every reachable host the status stays "up", and
error_message is the "; "-joined list of the sub-check diagnostics, except
that a GPU diagnostic containing "nvidia-smi not found" is dropped — which
covers mere tool absence (rc = 1, yielding no diagnostic at all, so absence
never surfaces) and also any other failure of the tool-presence probe, whose
message embeds that phrase; metrics executor failures and base-listing
failures do appear (singly, and "; "-joined when both occur). -/
theorem up_error_join_amended :
    (∀ (exec : Exec) (cfg : MonitoredHostConfig),
      (exec cfg.«alias» CHECK_REACHABILITY_CMD).1 = 0 →
      (get_full_host_status exec cfg).status = "up")
    ∧ (∀ (exec : Exec) (cfg : MonitoredHostConfig),
      (exec cfg.«alias» CHECK_REACHABILITY_CMD).1 = 0 →
      (exec cfg.«alias» TOP_CMD).1 = 0 →
      (exec cfg.«alias» CHECK_NVIDIA_SMI_CMD).1 = 1 →
      (get_full_host_status exec cfg).error_message = none)
    ∧ (get_full_host_status execGpuQueryFail ⟨"h", true⟩).error_message
        = some "GPU Error: Failed to get nvidia-smi GPU query from h (rc=2). Stderr: boom"
    ∧ (get_full_host_status execBothFail ⟨"h", true⟩).error_message
        = some ("Metrics Error: Failed to get top output from h (rc=1). Stderr: terr" ++
                "; GPU Error: Failed to get nvidia-smi GPU query from h (rc=2). Stderr: boom")
    ∧ (get_full_host_status execToolAbsent ⟨"h", true⟩).error_message = none := by
  refine ⟨?_, ?_, by decide, by decide, by decide⟩
  · intro exec cfg h
    have hr : (check_host_reachability exec cfg.«alias»).1 = true := by
      simp [check_host_reachability, h]
    simp [get_full_host_status, hr]
  · intro exec cfg h ht hs
    have hr : (check_host_reachability exec cfg.«alias»).1 = true := by
      simp [check_host_reachability, h]
    have hm2 : (get_host_metrics exec cfg.«alias»).2 = none := by
      simp [get_host_metrics, ht]
    have hsmi : check_nvidia_smi exec cfg.«alias» = (false, none) := by
      simp [check_nvidia_smi, hs]
    have hg2 : (get_gpu_info exec cfg.«alias»).2 = none := by
      simp [get_gpu_info, hsmi]
    by_cases hgpu : cfg.check_gpu
    · simp [get_full_host_status, hr, hm2, hg2, hgpu]
    · simp [get_full_host_status, hr, hm2, hgpu]

theorem up_error_join_amended_witness :
    ((execToolAbsent "h" CHECK_REACHABILITY_CMD).1 = 0 ∧
      (execToolAbsent "h" TOP_CMD).1 = 0 ∧
      (execToolAbsent "h" CHECK_NVIDIA_SMI_CMD).1 = 1) ∧
    (get_full_host_status execToolAbsent ⟨"h", true⟩).status = "up" ∧
    (get_full_host_status execToolAbsent ⟨"h", true⟩).error_message = none :=
  ⟨⟨by decide, by decide, by decide⟩,
   up_error_join_amended.1 execToolAbsent ⟨"h", true⟩ (by decide),
   up_error_join_amended.2.1 execToolAbsent ⟨"h", true⟩ (by decide) (by decide) (by decide)⟩
